import Mathlib

/-!
Verification development for the capinrs capability-routed batch RPC
dispatcher and its chat/nickname state machine.

The definitions below are a shallow embedding of the TypeScript source:

  * `tryHandleChatBatch` / `tryHandleStatsBatch` / `processRpcBatch` and the
    helpers they use embed the durable-object RPC module (the variant with
    `registeredNicks`, `nickOwners` and `nickTokens`);
  * `serverSendMessage` / `broadcastMessage` embed the WebSocket server's
    `CapnWebDurable.sendMessage` / `CapnWebDurable.broadcastMessage`.

Modelling conventions:

  * JSON values are represented by `JValue`, with numbers as integers (all
    numbers the claims exercise — capability ids, import ids, millisecond
    timestamps — are integral).  `JSON.parse` is an external host primitive
    and is abstracted as a parameter `parse : String → Option JValue`
    (`none` models a parse exception); `JSON.stringify` is elided by keeping
    persisted documents and response lines as parsed `JValue`s.
  * JavaScript objects are association lists in property-insertion order;
    `obj[k] = v` is `insertA` (update in place, else append) and `delete`
    is key filtering.  `Object.entries` on integer-like keys reorders them
    in JS; no claim observes that order.
  * `Date.now()` is a parameter `now : Int`; one dispatch sees one instant,
    as the source only compares timestamps across calls.
  * Durable storage is `Storage`, one field per storage key.
-/

/-- JSON-like values produced by parsing request lines or persisted state. -/
inductive JValue where
  | null
  | bool (b : Bool)
  | num (n : Int)
  | str (s : String)
  | arr (elems : List JValue)
  | obj (fields : List (String × JValue))

/-- Truthiness of a JSON value under JavaScript coercion rules
(`null`, `false`, `0` and `""` are falsy; arrays and objects are truthy). -/
def truthyJ : JValue → Bool
  | .null => false
  | .bool b => b
  | .num n => n != 0
  | .str s => s != ""
  | .arr _ => true
  | .obj _ => true

/-- Truthiness of `record[key]` when the looked-up value is a string:
`undefined` and `""` are falsy. -/
def truthyStrOpt : Option String → Bool
  | some s => s != ""
  | none => false

def asArr : JValue → Option (List JValue)
  | .arr l => some l
  | _ => none

def asNum : JValue → Option Int
  | .num n => some n
  | _ => none

def asStr : JValue → Option String
  | .str s => some s
  | _ => none

/-- Property lookup in an association list, mirroring `record[key]`
(`none` models `undefined`). -/
def lookupA {β : Type} (m : List (String × β)) (k : String) : Option β :=
  match m with
  | [] => none
  | kv :: rest => if kv.1 = k then some kv.2 else lookupA rest k

/-- Property assignment `record[key] = v`: overwrite in place when the key
is present, append otherwise. -/
def insertA {β : Type} (m : List (String × β)) (k : String) (v : β) : List (String × β) :=
  match m with
  | [] => [(k, v)]
  | kv :: rest => if kv.1 = k then (k, v) :: rest else kv :: insertA rest k v

theorem lookupA_insertA_self {β : Type} (m : List (String × β)) (k : String) (v : β) :
    lookupA (insertA m k v) k = some v := by
  induction m with
  | nil => simp [insertA, lookupA]
  | cons kv rest ih =>
    by_cases h : kv.1 = k
    · simp [insertA, h, lookupA]
    · simp [insertA, h, lookupA, ih]

theorem mem_insertA {β : Type} (m : List (String × β)) (k : String) (v : β) :
    ∀ kv ∈ insertA m k v, kv = (k, v) ∨ kv ∈ m := by
  induction m with
  | nil => intro kv h; simpa [insertA] using h
  | cons hd rest ih =>
    intro kv h
    by_cases hk : hd.1 = k
    · rw [insertA, if_pos hk] at h
      rcases List.mem_cons.mp h with h | h
      · exact Or.inl h
      · exact Or.inr (List.mem_cons_of_mem _ h)
    · rw [insertA, if_neg hk] at h
      rcases List.mem_cons.mp h with h | h
      · exact Or.inr (h ▸ List.mem_cons_self _ _)
      · rcases ih kv h with h' | h'
        · exact Or.inl h'
        · exact Or.inr (List.mem_cons_of_mem _ h')

theorem lookupA_some_mem {β : Type} {m : List (String × β)} {k : String} {v : β}
    (h : lookupA m k = some v) : (k, v) ∈ m := by
  induction m with
  | nil => simp [lookupA] at h
  | cons hd rest ih =>
    by_cases hk : hd.1 = k
    · rw [lookupA, if_pos hk] at h
      obtain rfl := Option.some.inj h
      exact (by simpa [← hk] using List.mem_cons_self hd rest)
    · rw [lookupA, if_neg hk] at h
      exact List.mem_cons_of_mem _ (ih h)

theorem lookupA_isSome_mem {β : Type} {m : List (String × β)} {k : String}
    (h : (lookupA m k).isSome = true) : k ∈ m.map Prod.fst := by
  rcases Option.isSome_iff_exists.mp h with ⟨v, hv⟩
  exact List.mem_map_of_mem Prod.fst (lookupA_some_mem hv)

/-! ### Decimal rendering of numbers

`String(n)` on an integral JS number yields its decimal representation;
`jsIntString` reproduces it and `parseIntDec` is a verified left inverse,
giving injectivity of the key-rendering function. -/

def digitChar : Nat → Char
  | 0 => '0' | 1 => '1' | 2 => '2' | 3 => '3' | 4 => '4'
  | 5 => '5' | 6 => '6' | 7 => '7' | 8 => '8' | 9 => '9'
  | _ => '*'

def charDigit? (c : Char) : Option Nat :=
  if c = '0' then some 0 else if c = '1' then some 1 else if c = '2' then some 2
  else if c = '3' then some 3 else if c = '4' then some 4 else if c = '5' then some 5
  else if c = '6' then some 6 else if c = '7' then some 7 else if c = '8' then some 8
  else if c = '9' then some 9 else none

/-- Least-significant-first decimal digits, with fuel for structural
termination (`fuel ≥ n` suffices). -/
def digitsRev (fuel : Nat) (n : Nat) : List Nat :=
  match fuel with
  | 0 => []
  | fuel + 1 => if n = 0 then [] else (n % 10) :: digitsRev fuel (n / 10)

def natDecimal (n : Nat) : String :=
  if n = 0 then "0" else String.mk (((digitsRev n n).map digitChar).reverse)

/-- Decimal representation of an integer, as produced by `String(n)`. -/
def jsIntString : Int → String
  | .ofNat n => natDecimal n
  | .negSucc m => "-" ++ natDecimal (m + 1)

def decodeDigits : List Char → Option (List Nat)
  | [] => some []
  | c :: cs => (charDigit? c).bind fun d => (decodeDigits cs).map fun ds => d :: ds

def ofDigs : List Nat → Nat
  | [] => 0
  | d :: ds => d + 10 * ofDigs ds

def parseNatChars (cs : List Char) : Option Nat :=
  if cs.isEmpty then none else (decodeDigits cs).map fun ds => ofDigs ds.reverse

def parseIntDec (s : String) : Option Int :=
  match s.data with
  | [] => none
  | c :: rest =>
    if c = '-' then (parseNatChars rest).map fun n : Nat => -(n : Int)
    else (parseNatChars (c :: rest)).map fun n : Nat => (n : Int)

theorem charDigit?_digitChar {d : Nat} (h : d < 10) : charDigit? (digitChar d) = some d := by
  interval_cases d <;> rfl

theorem digitChar_ne_dash (d : Nat) : digitChar d ≠ '-' := by
  unfold digitChar
  split <;> decide

theorem digitsRev_lt (fuel n : Nat) : ∀ d ∈ digitsRev fuel n, d < 10 := by
  induction fuel generalizing n with
  | zero => simp [digitsRev]
  | succ fuel ih =>
    intro d hd
    rw [digitsRev] at hd
    by_cases h : n = 0
    · simp [h] at hd
    · rw [if_neg h] at hd
      rcases List.mem_cons.mp hd with rfl | hmem
      · exact Nat.mod_lt _ (by norm_num)
      · exact ih _ _ hmem

theorem decodeDigits_map_digitChar {l : List Nat} (h : ∀ d ∈ l, d < 10) :
    decodeDigits (l.map digitChar) = some l := by
  induction l with
  | nil => rfl
  | cons d ds ih =>
    have hd : d < 10 := h d (List.mem_cons_self _ _)
    have hds : ∀ x ∈ ds, x < 10 := fun x hx => h x (List.mem_cons_of_mem _ hx)
    simp [decodeDigits, charDigit?_digitChar hd, ih hds]

theorem ofDigs_digitsRev {fuel n : Nat} (h : n ≤ fuel) : ofDigs (digitsRev fuel n) = n := by
  induction fuel generalizing n with
  | zero => interval_cases n; rfl
  | succ fuel ih =>
    rw [digitsRev]
    by_cases h0 : n = 0
    · simp [h0, ofDigs]
    · rw [if_neg h0, ofDigs]
      have hdiv : n / 10 ≤ fuel := by
        have : n / 10 < n := Nat.div_lt_self (Nat.pos_of_ne_zero h0) (by norm_num)
        omega
      rw [ih hdiv]
      omega

theorem digitsRev_ne_nil {n : Nat} (h : n ≠ 0) : digitsRev n n ≠ [] := by
  cases n with
  | zero => exact absurd rfl h
  | succ m =>
    rw [digitsRev, if_neg h]
    exact List.cons_ne_nil _ _

theorem parseNatChars_natDecimal (n : Nat) : parseNatChars (natDecimal n).data = some n := by
  by_cases h0 : n = 0
  · subst h0; rfl
  · have hne := digitsRev_ne_nil h0
    have hdata : (natDecimal n).data = ((digitsRev n n).map digitChar).reverse := by
      rw [natDecimal, if_neg h0]
    have hlt : ∀ d ∈ (digitsRev n n).reverse, d < 10 := by
      intro d hd
      exact digitsRev_lt n n d (List.mem_reverse.mp hd)
    have hdec : decodeDigits (((digitsRev n n).map digitChar).reverse) =
        some (digitsRev n n).reverse := by
      rw [← List.map_reverse]
      exact decodeDigits_map_digitChar hlt
    have hmapne : (((digitsRev n n).map digitChar).reverse).isEmpty = false := by
      simp [hne]
    rw [parseNatChars, hdata, hmapne, hdec]
    simp [List.reverse_reverse, ofDigs_digitsRev (Nat.le_refl n)]

theorem natDecimal_head_digit {n : Nat} {c : Char} {rest : List Char}
    (h : (natDecimal n).data = c :: rest) : ∃ d, c = digitChar d := by
  by_cases h0 : n = 0
  · subst h0
    have h0' : (natDecimal 0).data = ['0'] := rfl
    rw [h0'] at h
    injection h with h1 _
    exact ⟨0, h1.symm⟩
  · rw [natDecimal, if_neg h0] at h
    have hc : c ∈ ((digitsRev n n).map digitChar).reverse := by
      rw [show (String.mk (((digitsRev n n).map digitChar).reverse)).data =
        ((digitsRev n n).map digitChar).reverse from rfl] at h
      rw [h]; exact List.mem_cons_self _ _
    rcases List.mem_map.mp (List.mem_reverse.mp hc) with ⟨d, _, hd⟩
    exact ⟨d, hd.symm⟩

/-- Round trip: parsing the decimal rendering of an integer recovers it. -/
theorem parseIntDec_jsIntString (i : Int) : parseIntDec (jsIntString i) = some i := by
  cases i with
  | ofNat n =>
    have h := parseNatChars_natDecimal n
    rcases hm : (natDecimal n).data with _ | ⟨c, rest⟩
    · rw [hm] at h; simp [parseNatChars] at h
    · rcases natDecimal_head_digit hm with ⟨d, rfl⟩
      rw [hm] at h
      simp [jsIntString, parseIntDec.eq_def, hm, digitChar_ne_dash d, h]
  | negSucc m =>
    have hdata : (("-" ++ natDecimal (m + 1)) : String).data = '-' :: (natDecimal (m + 1)).data := by
      have h2 : (("-" ++ natDecimal (m + 1)) : String).data =
          ("-" : String).data ++ (natDecimal (m + 1)).data := by simp
      simpa using h2
    simp [jsIntString, parseIntDec.eq_def, hdata, parseNatChars_natDecimal (m + 1),
      Int.negSucc_eq]

theorem jsIntString_injective : Function.Injective jsIntString := by
  intro a b h
  have ha := parseIntDec_jsIntString a
  have hb := parseIntDec_jsIntString b
  rw [h, hb] at ha
  exact (Option.some.inj ha).symm

/-! ### Line splitting and trimming

`payload.split("\n").map(l => l.trim()).filter(l => l.length > 0)`,
modelled over character lists.  `isJsSpace` covers the ASCII whitespace
classes relevant to the protocol (JS `trim` also strips exotic Unicode
spaces; the wire format never contains them). -/

def isJsSpace (c : Char) : Bool :=
  c = ' ' || c = '\t' || c = '\n' || c = '\r' || c = '\x0b' || c = '\x0c'

def trimString (s : String) : String :=
  String.mk (((s.data.dropWhile isJsSpace).reverse.dropWhile isJsSpace).reverse)

/-- Split a character list at every newline, like `String.prototype.split("\n")`. -/
def splitNl : List Char → List (List Char)
  | [] => [[]]
  | c :: rest =>
    let groups := splitNl rest
    if c = '\n' then [] :: groups
    else
      match groups with
      | g :: gs => (c :: g) :: gs
      | [] => [[c]]

def splitLines (payload : String) : List String :=
  (((splitNl payload.data).map fun g => trimString (String.mk g)).filter
    fun l => l.length > 0)

/-! ### The chat data model

`ChatState` and its constituents embed the `ChatState` interface of the
durable-object RPC module (the full variant with nickname registry and
tokens; the WebSocket server file declares the same shape minus
`nickTokens`, which it simply never reads). -/

structure MessageEntry where
  «from» : String
  body : String
  timestamp : Int
deriving DecidableEq

structure SessionInfo where
  username : String
  displayName : Option String := none
deriving DecidableEq

structure NickTokenInfo where
  username : String
  nickname : Option String := none
  issuedAt : Int
  lastUsed : Option Int := none
deriving DecidableEq

structure ChatState where
  credentials : List (String × String)
  messages : List MessageEntry
  nextSessionCapId : Int
  sessionCaps : List (String × SessionInfo)
  registeredNicks : List (String × String)
  nickOwners : List (String × String)
  nickTokens : List (String × NickTokenInfo)
deriving DecidableEq

def CALCULATOR_CAP_ID : Int := 1
def CHAT_CAPABILITY_ID : Int := 2
def SESSION_CAPABILITY_START : Int := 10000

def DEFAULT_CHAT_STATE : ChatState :=
  { credentials := [("alice", "password123"), ("bob", "hunter2"), ("carol", "letmein")]
    messages := []
    nextSessionCapId := SESSION_CAPABILITY_START
    sessionCaps := []
    registeredNicks := []
    nickOwners := []
    nickTokens := [] }

/-- Fresh per-request copy of the default state (sharing is immaterial in the
pure embedding; the name mirrors the source). -/
def cloneDefaultChatState : ChatState := DEFAULT_CHAT_STATE

/-- Entries of a JSON value viewed as an object, as `Object.entries` yields
them: object fields in insertion order, array elements keyed by index. -/
def entriesOf : JValue → List (String × JValue)
  | .obj fields => fields
  | .arr xs => ((List.range xs.length).zip xs).map fun p => (natDecimal p.1, p.2)
  | _ => []

/-- Property read `v[k]` for JSON values (arrays expose index keys). -/
def getFieldJ (v : JValue) (k : String) : Option JValue :=
  match v with
  | .obj _ => lookupA (entriesOf v) k
  | .arr _ => lookupA (entriesOf v) k
  | _ => none

/-- Does the value pass `v && typeof v === "object"` (a truthy object, i.e.
an object or an array; `null` is falsy despite `typeof null === "object"`)? -/
def isObjLike : JValue → Bool
  | .obj _ => true
  | .arr _ => true
  | _ => false

def normCredentials (base : List (String × String)) (v : Option JValue) :
    List (String × String) :=
  match v with
  | some src =>
    if isObjLike src then
      (entriesOf src).foldl
        (fun acc kv =>
          match kv.2 with
          | .str s => insertA acc kv.1 s
          | _ => acc)
        base
    else base
  | none => base

def normMessages (now : Int) (v : Option JValue) : List MessageEntry :=
  match v with
  | some (.arr entries) =>
    entries.foldl
      (fun acc entry =>
        if isObjLike entry then
          let fromV := match getFieldJ entry "from" with
            | some (.str s) => some s
            | _ => none
          let bodyV := match getFieldJ entry "body" with
            | some (.str s) => some s
            | _ => none
          let timestamp := match getFieldJ entry "timestamp" with
            | some (.num t) => t
            | _ => now
          match fromV, bodyV with
          | some f, some b =>
            if f != "" && b != "" then acc ++ [⟨f, b, timestamp⟩] else acc
          | _, _ => acc
        else acc)
      []
  | _ => []

def normSessionCaps (v : Option JValue) : List (String × SessionInfo) :=
  match v with
  | some src =>
    if isObjLike src then
      (entriesOf src).foldl
        (fun acc kv =>
          if isObjLike kv.2 then
            match getFieldJ kv.2 "username" with
            | some (.str username) =>
              let displayName := match getFieldJ kv.2 "displayName" with
                | some (.str d) => some d
                | _ => none
              insertA acc kv.1 ⟨username, displayName⟩
            | _ => acc
          else acc)
        []
    else []
  | none => []

def normStringMap (base : List (String × String)) (v : Option JValue) :
    List (String × String) :=
  normCredentials base v

def normNickTokens (now : Int) (v : Option JValue) : List (String × NickTokenInfo) :=
  match v with
  | some src =>
    if isObjLike src then
      (entriesOf src).foldl
        (fun acc kv =>
          if isObjLike kv.2 then
            match getFieldJ kv.2 "username" with
            | some (.str username) =>
              let nickname := match getFieldJ kv.2 "nickname" with
                | some (.str s) => if s != "" then some s else none
                | _ => none
              let issuedAt := match getFieldJ kv.2 "issuedAt" with
                | some (.num t) => t
                | _ => now
              let lastUsed := match getFieldJ kv.2 "lastUsed" with
                | some (.num t) => some t
                | _ => none
              insertA acc kv.1 ⟨username, nickname, issuedAt, lastUsed⟩
            | _ => acc
          else acc)
        []
    else []
  | none => []

/-- Defensive per-field coercion of a parsed persisted document into a
`ChatState`, embedding `normalizeChatState`.  `now` stands for the
`Date.now()` fallback used for missing timestamps. -/
def normalizeChatState (now : Int) (parsed : JValue) : ChatState :=
  let base := cloneDefaultChatState
  if !truthyJ parsed || !isObjLike parsed then base
  else
    { credentials := normCredentials base.credentials (getFieldJ parsed "credentials")
      messages :=
        match getFieldJ parsed "messages" with
        | some (.arr entries) => normMessages now (some (.arr entries))
        | _ => base.messages
      nextSessionCapId :=
        match getFieldJ parsed "nextSessionCapId" with
        | some (.num n) => max SESSION_CAPABILITY_START n
        | _ => base.nextSessionCapId
      sessionCaps := normSessionCaps (getFieldJ parsed "sessionCaps")
      registeredNicks := normStringMap base.registeredNicks (getFieldJ parsed "registeredNicks")
      nickOwners := normStringMap base.nickOwners (getFieldJ parsed "nickOwners")
      nickTokens := normNickTokens now (getFieldJ parsed "nickTokens") }

/-! ### Persistence

The persisted document is kept as a parsed `JValue` (`JSON.stringify` /
`JSON.parse` round-trip through the storage substrate is the identity on
JSON values).  `none` stands for an absent, empty or unparseable stored
string — all of which the source maps to the default state. -/

def messageToJson (m : MessageEntry) : JValue :=
  .obj [("from", .str m.«from»), ("body", .str m.body), ("timestamp", .num m.timestamp)]

def sessionInfoToJson (si : SessionInfo) : JValue :=
  .obj (("username", .str si.username) ::
    (match si.displayName with
     | some d => [("displayName", .str d)]
     | none => []))

def nickTokenToJson (t : NickTokenInfo) : JValue :=
  .obj ([("username", .str t.username)] ++
    (match t.nickname with
     | some n => [("nickname", .str n)]
     | none => []) ++
    [("issuedAt", .num t.issuedAt)] ++
    (match t.lastUsed with
     | some u => [("lastUsed", .num u)]
     | none => []))

def chatStateToJson (cs : ChatState) : JValue :=
  .obj [("credentials", .obj (cs.credentials.map fun kv => (kv.1, .str kv.2)))
      , ("messages", .arr (cs.messages.map messageToJson))
      , ("nextSessionCapId", .num cs.nextSessionCapId)
      , ("sessionCaps", .obj (cs.sessionCaps.map fun kv => (kv.1, sessionInfoToJson kv.2)))
      , ("registeredNicks", .obj (cs.registeredNicks.map fun kv => (kv.1, .str kv.2)))
      , ("nickOwners", .obj (cs.nickOwners.map fun kv => (kv.1, .str kv.2)))
      , ("nickTokens", .obj (cs.nickTokens.map fun kv => (kv.1, nickTokenToJson kv.2)))]

/-- Durable storage, one field per key the module reads or writes.
Response lines are likewise kept as parsed `JValue`s. -/
structure Storage where
  chatState : Option JValue := none
  callCount : Option Int := none
  lastRequest : Option String := none
  lastResponse : Option JValue := none

def loadChatState (now : Int) (sto : Storage) : ChatState :=
  match sto.chatState with
  | some v => normalizeChatState now v
  | none => cloneDefaultChatState

/-! ### The chat dispatch -/

inductive PayloadResult where
  | success (value : JValue)
  | failure (message : String)

structure DispatchOutcome where
  result : PayloadResult
  chatState : ChatState
  mutated : Bool

/-- Single-quote character, used in the user-facing success messages. -/
def sglQuote : String := String.mk [Char.ofNat 39]

/-- Linear probing from a candidate id to the first id whose decimal key is
absent from the capability table; the fuel `caps.length + 1` is enough to
reach a free id (see `probeCapId_free`). -/
def probeFrom (fuel : Nat) (caps : List (String × SessionInfo)) (id : Int) : Int :=
  match fuel with
  | 0 => id
  | fuel + 1 =>
    if (lookupA caps (jsIntString id)).isSome then probeFrom fuel caps (id + 1) else id

def probeCapId (caps : List (String × SessionInfo)) (start : Int) : Int :=
  probeFrom (caps.length + 1) caps start

/-- Stable insertion of one element into a list sorted by descending
`issuedAt` (element goes before the first strictly-older entry). -/
def insSortedDesc (x : String × NickTokenInfo) :
    List (String × NickTokenInfo) → List (String × NickTokenInfo)
  | [] => [x]
  | y :: ys =>
    if y.2.issuedAt ≤ x.2.issuedAt then x :: y :: ys else y :: insSortedDesc x ys

/-- Stable sort by descending `issuedAt`, the unique result of
`Array.prototype.sort` (stable per the ES spec) under the comparator
`(b.issuedAt ?? 0) - (a.issuedAt ?? 0)` (`issuedAt` is always present). -/
def sortByIssuedAtDesc : List (String × NickTokenInfo) → List (String × NickTokenInfo)
  | [] => []
  | x :: xs => insSortedDesc x (sortByIssuedAtDesc xs)

/-- Token-table update of `storeNickToken`: insert the new entry, then drop
every token of the same user beyond the five most recently issued. -/
def storeTokenUpdate (now : Int) (tokens : List (String × NickTokenInfo))
    (si : SessionInfo) (token : String) : List (String × NickTokenInfo) :=
  let nickname := match si.displayName with
    | some d => if d != "" then some d else none
    | none => none
  let inserted := insertA tokens token ⟨si.username, nickname, now, some now⟩
  let tokensForUser :=
    sortByIssuedAtDesc (inserted.filter fun kv => kv.2.username == si.username)
  let toDelete := (tokensForUser.drop 5).map Prod.fst
  inserted.filter fun kv => !(toDelete.contains kv.1)

/-- Capability/method dispatch of `tryHandleChatBatch` (the portion between
loading and persisting the chat state).  Every branch mirrors the source
`switch`; `now` is `Date.now()`. -/
def handleChatCall (now : Int) (chatState : ChatState) (capabilityId : Int)
    (method : String) (args : List JValue) : DispatchOutcome :=
  if capabilityId = CHAT_CAPABILITY_ID then
    if method = "auth" then
      match args with
      | .str _ :: _ =>
        let sessionCapId := probeCapId chatState.sessionCaps chatState.nextSessionCapId
        let storedUsername := "guest-" ++ jsIntString sessionCapId
        { result := .success (.obj
            [("session", .obj [("_type", .str "capability"), ("id", .num sessionCapId)])
            , ("user", .str storedUsername)])
          chatState := { chatState with
            nextSessionCapId := sessionCapId + 1
            sessionCaps := insertA chatState.sessionCaps (jsIntString sessionCapId)
              ⟨storedUsername, none⟩ }
          mutated := true }
      | _ => ⟨.failure "`auth` expects <username>", chatState, false⟩
    else if method = "redeemNickToken" then
      match args with
      | [.str rawToken] =>
        let token := trimString rawToken
        if token = "" then
          ⟨.success (.obj [("status", .str "error"), ("message", .str "Token must be provided")]),
            chatState, false⟩
        else
          match lookupA chatState.nickTokens token with
          | none =>
            ⟨.success (.obj [("status", .str "error"), ("message", .str "Token not recognized")]),
              chatState, false⟩
          | some tokenInfo =>
            let sessionCapId := probeCapId chatState.sessionCaps chatState.nextSessionCapId
            { result := .success (.obj
                [("status", .str "ok")
                , ("session", .obj [("_type", .str "capability"), ("id", .num sessionCapId)])
                , ("user", .str tokenInfo.username)
                , ("nickname", .str (tokenInfo.nickname.getD tokenInfo.username))])
              chatState := { chatState with
                nextSessionCapId := sessionCapId + 1
                sessionCaps := insertA chatState.sessionCaps (jsIntString sessionCapId)
                  ⟨tokenInfo.username, some (tokenInfo.nickname.getD tokenInfo.username)⟩
                nickTokens := insertA chatState.nickTokens token
                  { tokenInfo with lastUsed := some now } }
              mutated := true }
      | _ => ⟨.failure "`redeemNickToken` expects <token>", chatState, false⟩
    else if method = "sendMessage" || method = "receiveMessages" then
      ⟨.failure "Call this method on the session capability returned by `auth`",
        chatState, false⟩
    else
      ⟨.failure ("Unknown chat method: " ++ method), chatState, false⟩
  else
    match lookupA chatState.sessionCaps (jsIntString capabilityId) with
    | none => ⟨.failure "unknown session capability", chatState, false⟩
    | some sessionInfo =>
      if method = "sendMessage" then
        match args with
        | [.str message] =>
          let newMessage : MessageEntry :=
            ⟨sessionInfo.displayName.getD sessionInfo.username, message, now⟩
          { result := .success (.obj [("status", .str "ok"), ("echo", .str message)])
            chatState := { chatState with messages := chatState.messages ++ [newMessage] }
            mutated := true }
        | _ => ⟨.failure "`sendMessage` expects <message>", chatState, false⟩
      else if method = "receiveMessages" then
        match args with
        | [] =>
          ⟨.success (.obj [("messages", .arr (chatState.messages.map messageToJson))]),
            chatState, false⟩
        | _ => ⟨.failure "`receiveMessages` takes no arguments", chatState, false⟩
      else if method = "registerNick" then
        match args with
        | [.str nickname, .str password] =>
          if truthyStrOpt (lookupA chatState.registeredNicks nickname) then
            ⟨.success (.obj [("status", .str "error"),
                ("message", .str "Nickname already registered")]),
              chatState, false⟩
          else
            { result := .success (.obj [("status", .str "ok")
                , ("message", .str ("Nickname " ++ sglQuote ++ nickname ++ sglQuote ++ " registered successfully"))])
              chatState := { chatState with
                registeredNicks := insertA chatState.registeredNicks nickname password
                nickOwners := insertA chatState.nickOwners nickname sessionInfo.username
                sessionCaps := insertA chatState.sessionCaps (jsIntString capabilityId)
                  { sessionInfo with displayName := some nickname } }
              mutated := true }
        | _ => ⟨.failure "`registerNick` expects <nickname>, <password>", chatState, false⟩
      else if method = "identifyNick" then
        match args with
        | [.str nickname, .str password] =>
          match lookupA chatState.registeredNicks nickname with
          | none =>
            ⟨.success (.obj [("status", .str "error"), ("message", .str "Nickname not registered")]),
              chatState, false⟩
          | some storedPassword =>
            if storedPassword = "" then
              ⟨.success (.obj [("status", .str "error"), ("message", .str "Nickname not registered")]),
                chatState, false⟩
            else if storedPassword ≠ password then
              ⟨.success (.obj [("status", .str "error"), ("message", .str "Invalid password")]),
                chatState, false⟩
            else
              { result := .success (.obj [("status", .str "ok")
                  , ("message", .str ("Successfully identified as " ++ sglQuote ++ nickname ++ sglQuote))])
                chatState := { chatState with
                  nickOwners := insertA chatState.nickOwners nickname sessionInfo.username
                  sessionCaps := insertA chatState.sessionCaps (jsIntString capabilityId)
                    { sessionInfo with displayName := some nickname } }
                mutated := true }
        | _ => ⟨.failure "`identifyNick` expects <nickname>, <password>", chatState, false⟩
      else if method = "checkNick" then
        match args with
        | [.str nickname] =>
          ⟨.success (.obj [("status", .str "ok")
              , ("registered", .bool (truthyStrOpt (lookupA chatState.registeredNicks nickname)))]),
            chatState, false⟩
        | _ => ⟨.failure "`checkNick` expects <nickname>", chatState, false⟩
      else if method = "storeNickToken" then
        match args with
        | [.str rawToken] =>
          let token := trimString rawToken
          if token = "" then
            ⟨.success (.obj [("status", .str "error"), ("message", .str "Token must be provided")]),
              chatState, false⟩
          else
            { result := .success (.obj [("status", .str "ok")
                , ("message", .str "Nickname token stored")])
              chatState := { chatState with
                nickTokens := storeTokenUpdate now chatState.nickTokens sessionInfo token }
              mutated := true }
        | _ => ⟨.failure "`storeNickToken` expects <token>", chatState, false⟩
      else if method = "whoami" then
        ⟨.success (.obj [("username", .str (sessionInfo.displayName.getD sessionInfo.username))]),
          chatState, false⟩
      else
        ⟨.failure ("method " ++ method ++ " not supported on session capability"),
          chatState, false⟩

/-! ### Batch decoding and the handlers -/

/-- Does `l[0] === tag` hold for a string tag (the `pushOp[0] === "push"`
style checks)? -/
def tagIs (l : List JValue) (tag : String) : Bool :=
  match l[0]? with
  | some (JValue.str t) => t == tag
  | _ => false

/-- Shape checks of `tryHandleChatBatch` on the two parsed lines, in source
order; yields `(importId, capabilityId, method, args)`, or `none` for
"not a recognized batch" (the absence signal that lets the dispatcher fall
through to the next handler). -/
def decodeChatBatch (parse : String → Option JValue) (payload : String) :
    Option (Int × Int × String × List JValue) :=
  match splitLines payload with
  | [l0, l1] =>
    (parse l0).bind fun pushOp =>
    (parse l1).bind fun pullOp =>
    (asArr pushOp).bind fun ps =>
    if tagIs ps "push" then
      (asArr pullOp).bind fun qs =>
      if tagIs qs "pull" then
        ((qs[1]?).bind asNum).bind fun importId =>
        (ps[1]?).bind fun callV =>
        (asArr callV).bind fun callList =>
        if tagIs callList "call" then
          ((callList[1]?).bind asNum).bind fun capabilityId =>
          (((callList[2]?).bind asArr).bind fun path => (path[0]?).bind asStr).bind fun method =>
          if method = "" then none
          else
            ((callList[3]?).bind asArr).bind fun args =>
            some (importId, capabilityId, method, args)
        else none
      else none
    else none
  | _ => none

/-- Envelope construction: `["result", importId, value]` on success,
`["error", importId, {message}]` on failure. -/
def chatReplyValue (res : PayloadResult) (importId : Int) : JValue :=
  match res with
  | .success v => .arr [.str "result", .num importId, v]
  | .failure m => .arr [.str "error", .num importId, .obj [("message", .str m)]]

/-- Full chat handler: decode, dispatch against the loaded state, persist on
mutation, then record the diagnostic counters and answer.  `none` signals
"not recognized" and performs no storage write. -/
def tryHandleChatBatch (now : Int) (parse : String → Option JValue)
    (payload : String) (sto : Storage) : Option (JValue × Storage) :=
  match decodeChatBatch parse payload with
  | none => none
  | some (importId, capabilityId, method, args) =>
    let chatState := loadChatState now sto
    let out := handleChatCall now chatState capabilityId method args
    let sto1 := if out.mutated
      then { sto with chatState := some (chatStateToJson out.chatState) }
      else sto
    let reply := chatReplyValue out.result importId
    let nextCount := sto.callCount.getD 0 + 1
    some (reply,
      { sto1 with
        callCount := some nextCount
        lastRequest := some payload
        lastResponse := some reply })

/-- Shape checks of `tryHandleStatsBatch`, in source order (push tag, call
tag, method `"stats"`, pull tag, numeric import id); yields the import id. -/
def decodeStatsBatch (parse : String → Option JValue) (payload : String) : Option Int :=
  match splitLines payload with
  | [l0, l1] =>
    (parse l0).bind fun pushOp =>
    (parse l1).bind fun pullOp =>
    (asArr pushOp).bind fun ps =>
    if tagIs ps "push" then
      ((ps[1]?).bind asArr).bind fun callList =>
      if tagIs callList "call" then
        let method := (((callList[2]?).bind asArr).bind fun path => (path[0]?).bind asStr)
        if method = some "stats" then
          (asArr pullOp).bind fun qs =>
          if tagIs qs "pull" then
            ((qs[1]?).bind asNum).bind fun importId => some importId
          else none
        else none
      else none
    else none
  | _ => none

/-- Stats handler: answers `["result", importId, {callCount, lastRequest,
lastResponse}]` from the stored counters and performs no storage write. -/
def tryHandleStatsBatch (parse : String → Option JValue) (payload : String)
    (sto : Storage) : Option (JValue × Storage) :=
  match decodeStatsBatch parse payload with
  | none => none
  | some importId =>
    some (.arr [.str "result", .num importId, .obj
        [("callCount", .num (sto.callCount.getD 0))
        , ("lastRequest", match sto.lastRequest with
            | some s => .str s
            | none => .null)
        , ("lastResponse", sto.lastResponse.getD .null)]],
      sto)

/-- Calculator call evaluation; exceptions become `Except.error` with the
thrown message.  `callOp[3] || []` is modelled for absent or array argument
lists (a non-array argument value fails the arity/type check as in JS,
except for JSON objects crafted to be array-like, which no caller produces). -/
def handleCalculatorCall (callOp : List JValue) : Except String JValue :=
  match callOp[2]? with
  | some (JValue.arr path) =>
    match path[0]? with
    | some (JValue.str method) =>
      let args : List JValue := match callOp[3]? with
        | some (JValue.arr l) => l
        | _ => []
      if method = "add" then
        match args with
        | [.num a, .num b] => .ok (.num (a + b))
        | _ => .error "`add` expects exactly two numeric arguments"
      else if method = "stats" then
        .error "stats should be handled by tryHandleStatsBatch"
      else
        .error ("unknown calculator method `" ++ method ++ "`")
    | _ => .error "call method name must be a string"
  | _ => .error "call operation must include a method path array"

/-- Chain-of-responsibility entry point: stats, then chat, then the
calculator path inside a catch-all that turns any exception into a
`["error", 0, {message}]` line without touching storage.  `jsonErrMsg`
stands for the host-specific message of a `JSON.parse` exception on the
calculator path. -/
def processRpcBatch (now : Int) (parse : String → Option JValue) (jsonErrMsg : String)
    (input : String) (sto : Storage) : JValue × Storage :=
  match tryHandleStatsBatch parse input sto with
  | some out => out
  | none =>
    match tryHandleChatBatch now parse input sto with
    | some out => out
    | none =>
      let unsupported : JValue × Storage :=
        (.arr [.str "error", .num 0, .obj [("message", .str "Unsupported operation")]], sto)
      match splitLines input with
      | [l0, l1] =>
        match parse l0, parse l1 with
        | some pushOp, some pullOp =>
          match asArr pushOp, asArr pullOp with
          | some ps, some qs =>
            if tagIs ps "push" && tagIs qs "pull" then
              match (ps[1]?).bind asArr with
              | some callList =>
                let capIsCalc : Bool := match callList[1]? with
                  | some (JValue.num n) => n == CALCULATOR_CAP_ID
                  | _ => false
                if tagIs callList "call" && capIsCalc then
                  match handleCalculatorCall callList with
                  | .ok v =>
                    let reply : JValue := .arr [.str "result", (qs[1]?).getD .null, v]
                    (reply,
                      { sto with
                        callCount := some (sto.callCount.getD 0 + 1)
                        lastRequest := some input
                        lastResponse := some reply })
                  | .error m =>
                    (.arr [.str "error", .num 0, .obj [("message", .str m)]], sto)
                else unsupported
              | none => unsupported
            else unsupported
          | _, _ => unsupported
        | _, _ =>
          (.arr [.str "error", .num 0, .obj [("message", .str jsonErrMsg)]], sto)
      | _ => unsupported

/-! ### Broadcast hub (WebSocket server)

Embeds `CapnWebDurable.broadcastMessage` and the identical inline delivery
loop of `CapnWebDurable.sendMessage`.  Live client stubs are identifiers;
`fails c = true` models `clientStub.receiveMessage` throwing for that stub.
The loop iterates over `Array.from(this.clients)` — a snapshot taken before
any eviction — deleting a member from the live set when its delivery throws
and continuing with the rest. -/

def broadcastRun (fails : Nat → Bool) :
    List Nat → List Nat → List Nat → List Nat × List Nat
  | [], members, delivered => (members, delivered)
  | c :: rest, members, delivered =>
    if fails c then broadcastRun fails rest (members.erase c) delivered
    else broadcastRun fails rest members (delivered ++ [c])

/-- `broadcastMessage`: attempt delivery to every member of the snapshot;
returns the surviving member set and the list of successful deliveries in
iteration order. -/
def broadcastMessage (fails : Nat → Bool) (clients : List Nat) : List Nat × List Nat :=
  broadcastRun fails clients clients []

/-- `CapnWebDurable.sendMessage(capabilityId, message)`: look up the
session, append the message under the session's display identity, persist,
deliver to every client, and report success.  Note the server file declares
`ChatState` without `nickTokens`; the richer record is reused here with that
field simply untouched. -/
def serverSendMessage (now : Int) (fails : Nat → Bool) (clients : List Nat)
    (sto : Storage) (capabilityId : Int) (message : String) :
    Except String (JValue × Storage × List Nat × List Nat) :=
  let chatState := loadChatState now sto
  match lookupA chatState.sessionCaps (jsIntString capabilityId) with
  | none => .error "unknown session capability"
  | some sessionInfo =>
    let fromName := sessionInfo.displayName.getD sessionInfo.username
    let chatState2 := { chatState with
      messages := chatState.messages ++ [⟨fromName, message, now⟩] }
    let sto2 := { sto with chatState := some (chatStateToJson chatState2) }
    let (clients2, delivered) := broadcastMessage fails clients
    .ok (.obj [("status", .str "ok"), ("echo", .str message)], sto2, clients2, delivered)

/-! ### Shared lemmas about the dispatch -/

theorem handleChatCall_unknown (now : Int) (cs : ChatState) (capId : Int)
    (method : String) (args : List JValue)
    (hcap : capId ≠ CHAT_CAPABILITY_ID)
    (hsess : lookupA cs.sessionCaps (jsIntString capId) = none) :
    handleChatCall now cs capId method args =
      ⟨.failure "unknown session capability", cs, false⟩ := by
  rw [handleChatCall.eq_def, if_neg hcap, hsess]

/-! ## Claim C1 -/

/-- C1: a dispatched two-line batch whose call targets a numeric capability
id that is neither the global chat capability id (2) nor a key of
`sessionCaps` is answered with the protocol-level envelope
`["error", importId, {message: "unknown session capability"}]` — an error
envelope, not a `{status:"error"}` value inside a result envelope — and the
persisted `chatState` document is left unchanged (only the diagnostic
counters are written). -/
theorem c1_unknown_capability_protocol_error
    (now : Int) (parse : String → Option JValue) (payload : String) (sto : Storage)
    (importId capId : Int) (method : String) (args : List JValue)
    (hdec : decodeChatBatch parse payload = some (importId, capId, method, args))
    (hcap : capId ≠ CHAT_CAPABILITY_ID)
    (hsess : lookupA (loadChatState now sto).sessionCaps (jsIntString capId) = none) :
    tryHandleChatBatch now parse payload sto =
      some (.arr [.str "error", .num importId,
              .obj [("message", .str "unknown session capability")]],
        { sto with
          callCount := some (sto.callCount.getD 0 + 1)
          lastRequest := some payload
          lastResponse := some (.arr [.str "error", .num importId,
            .obj [("message", .str "unknown session capability")]]) }) := by
  rw [tryHandleChatBatch, hdec]
  simp only [handleChatCall_unknown now _ capId method args hcap hsess, chatReplyValue]
  simp

def c1State : Storage := { chatState := none, callCount := some 3 }

def c1Parse : String → Option JValue := fun s =>
  if s = "A" then
    some (.arr [.str "push", .arr [.str "call", .num 4242, .arr [.str "whoami"], .arr []]])
  else if s = "B" then some (.arr [.str "pull", .num 1])
  else none

theorem c1_witness :
    tryHandleChatBatch 0 c1Parse "A\nB" c1State =
      some (.arr [.str "error", .num 1, .obj [("message", .str "unknown session capability")]],
        { c1State with
          callCount := some 4
          lastRequest := some "A\nB"
          lastResponse := some (.arr [.str "error", .num 1,
            .obj [("message", .str "unknown session capability")]]) }) :=
  c1_unknown_capability_protocol_error 0 c1Parse "A\nB" c1State 1 4242 "whoami" []
    rfl (by decide) rfl

/-! ## Claim C5 -/

/-- C5: on a session capability present in `sessionCaps`, `sendMessage` with
a single string argument appends exactly one entry
`{from: displayName ?? username, body: text, timestamp: now}` to `messages`
(leaving every previously stored message unchanged and in order), marks the
state mutated, and returns `{status:"ok", echo: text}`. -/
theorem c5_send_message_appends
    (now : Int) (cs : ChatState) (capId : Int) (si : SessionInfo) (text : String)
    (hcap : capId ≠ CHAT_CAPABILITY_ID)
    (hsess : lookupA cs.sessionCaps (jsIntString capId) = some si) :
    handleChatCall now cs capId "sendMessage" [.str text] =
      { result := .success (.obj [("status", .str "ok"), ("echo", .str text)])
        chatState := { cs with
          messages := cs.messages ++ [⟨si.displayName.getD si.username, text, now⟩] }
        mutated := true } := by
  rw [handleChatCall.eq_def, if_neg hcap, hsess]
  simp

def c5State : ChatState :=
  { cloneDefaultChatState with
    messages := [⟨"earlier", "old message", 17⟩]
    sessionCaps := [("10000", ⟨"alice", some "wonder"⟩)] }

theorem c5_witness :
    handleChatCall 99 c5State 10000 "sendMessage" [.str "hi"] =
      { result := .success (.obj [("status", .str "ok"), ("echo", .str "hi")])
        chatState := { c5State with
          messages := [⟨"earlier", "old message", 17⟩, ⟨"wonder", "hi", 99⟩] }
        mutated := true } :=
  c5_send_message_appends 99 c5State 10000 ⟨"alice", some "wonder"⟩ "hi" (by decide) rfl

/-! ## Claim C2 -/

def c2Step1 : DispatchOutcome :=
  handleChatCall 1 cloneDefaultChatState CHAT_CAPABILITY_ID "auth" [.str "alice", .str "pw"]
def c2Step2 : DispatchOutcome :=
  handleChatCall 2 c2Step1.chatState 10000 "registerNick" [.str "bob", .str ""]
def c2Step3 : DispatchOutcome :=
  handleChatCall 3 c2Step2.chatState 10000 "registerNick" [.str "bob", .str "other"]

/-- C2 counterexample: a nickname registered with the empty-string password
is present in `registeredNicks`, yet — because the handler tests the stored
entry for JS truthiness rather than presence — a second `registerNick` on
the same nickname succeeds with `{status:"ok"}` and overwrites the stored
password, instead of failing with `{status:"error"}` and leaving the state
unchanged.  The state is reached by dispatched operations alone (auth, then
`registerNick("bob","")`, then `registerNick("bob","other")`). -/
theorem c2_counterexample :
    lookupA c2Step2.chatState.registeredNicks "bob" = some "" ∧
    c2Step3.result = .success (.obj [("status", .str "ok"),
      ("message", .str ("Nickname " ++ sglQuote ++ "bob" ++ sglQuote ++ " registered successfully"))]) ∧
    lookupA c2Step3.chatState.registeredNicks "bob" = some "other" :=
  ⟨rfl, rfl, rfl⟩

/-- C2 (amended): for every session capability present in `sessionCaps` and
every nickname present in `registeredNicks` with a *non-empty* stored
password, `registerNick(nickname, password)` returns the domain value
`{status:"error", message:"Nickname already registered"}` inside a
successful result envelope and leaves the entire chat state (in particular
`registeredNicks[nickname]`, `nickOwners[nickname]` and the session's
`displayName`) unchanged.  (A nickname stored with the empty-string
password is treated as unregistered, per the counterexample.) -/
theorem c2_register_taken_rejected
    (now : Int) (cs : ChatState) (capId : Int) (si : SessionInfo)
    (nickname password storedPw : String)
    (hcap : capId ≠ CHAT_CAPABILITY_ID)
    (hsess : lookupA cs.sessionCaps (jsIntString capId) = some si)
    (hreg : lookupA cs.registeredNicks nickname = some storedPw)
    (hne : storedPw ≠ "") :
    handleChatCall now cs capId "registerNick" [.str nickname, .str password] =
      { result := .success (.obj [("status", .str "error"),
          ("message", .str "Nickname already registered")])
        chatState := cs
        mutated := false }
    ∧ ∀ importId : Int,
        chatReplyValue (handleChatCall now cs capId "registerNick"
          [.str nickname, .str password]).result importId =
          .arr [.str "result", .num importId,
            .obj [("status", .str "error"), ("message", .str "Nickname already registered")]] := by
  have h : handleChatCall now cs capId "registerNick" [.str nickname, .str password] =
      { result := .success (.obj [("status", .str "error"),
          ("message", .str "Nickname already registered")])
        chatState := cs
        mutated := false } := by
    rw [handleChatCall.eq_def, if_neg hcap, hsess]
    have ht : truthyStrOpt (lookupA cs.registeredNicks nickname) = true := by
      rw [hreg]; simp [truthyStrOpt, hne]
    simp [ht]
  exact ⟨h, fun importId => by rw [h]; rfl⟩

def c2State : ChatState :=
  { cloneDefaultChatState with
    sessionCaps := [("10000", ⟨"alice", none⟩)]
    registeredNicks := [("nick", "secret")]
    nickOwners := [("nick", "alice")] }

theorem c2_witness :
    handleChatCall 7 c2State 10000 "registerNick" [.str "nick", .str "pw2"] =
      { result := .success (.obj [("status", .str "error"),
          ("message", .str "Nickname already registered")])
        chatState := c2State
        mutated := false } :=
  (c2_register_taken_rejected 7 c2State 10000 ⟨"alice", none⟩ "nick" "pw2" "secret"
    (by decide) rfl rfl (by decide)).1

/-! ## Claim C3 -/

def c3Step1 : DispatchOutcome :=
  handleChatCall 1 cloneDefaultChatState CHAT_CAPABILITY_ID "auth" [.str "x"]
def c3Step2 : DispatchOutcome :=
  handleChatCall 2 c3Step1.chatState 10000 "registerNick" [.str "bob", .str ""]
def c3Step3 : DispatchOutcome :=
  handleChatCall 3 c3Step2.chatState CHAT_CAPABILITY_ID "auth" [.str "y"]
def c3Step4 : DispatchOutcome :=
  handleChatCall 4 c3Step3.chatState 10001 "identifyNick" [.str "bob", .str ""]

/-- C3 counterexample: `"bob"` is present in `registeredNicks` with stored
password `""` and the caller supplies exactly that stored password, yet
`identifyNick` answers `{status:"error", message:"Nickname not registered"}`
and does not reassign `nickOwners["bob"]` to the calling session's username
(`guest-10001`) nor bind its displayName — the stored entry fails the JS
truthiness test.  The state is reached by dispatched operations alone. -/
theorem c3_counterexample :
    lookupA c3Step3.chatState.registeredNicks "bob" = some "" ∧
    lookupA c3Step3.chatState.sessionCaps "10001" = some ⟨"guest-10001", none⟩ ∧
    c3Step4.result = .success (.obj [("status", .str "error"),
      ("message", .str "Nickname not registered")]) ∧
    c3Step4.chatState = c3Step3.chatState ∧
    lookupA c3Step4.chatState.nickOwners "bob" = some "guest-10000" :=
  ⟨rfl, rfl, rfl, rfl, rfl⟩

/-- C3 (amended): for every session capability present in `sessionCaps`,
`identifyNick(nickname, password)` with `nickname` present in
`registeredNicks` with a *non-empty* stored password equal to the supplied
password always sets `nickOwners[nickname]` to the calling session's
username — even when a different username was the previous owner — and sets
that session's `displayName` to the nickname.  (An entry stored with the
empty-string password is treated as unregistered, per the counterexample.) -/
theorem c3_identify_transfers_ownership
    (now : Int) (cs : ChatState) (capId : Int) (si : SessionInfo) (nickname pw : String)
    (hcap : capId ≠ CHAT_CAPABILITY_ID)
    (hsess : lookupA cs.sessionCaps (jsIntString capId) = some si)
    (hreg : lookupA cs.registeredNicks nickname = some pw)
    (hne : pw ≠ "") :
    handleChatCall now cs capId "identifyNick" [.str nickname, .str pw] =
      { result := .success (.obj [("status", .str "ok"),
          ("message", .str ("Successfully identified as " ++ sglQuote ++ nickname ++ sglQuote))])
        chatState := { cs with
          nickOwners := insertA cs.nickOwners nickname si.username
          sessionCaps := insertA cs.sessionCaps (jsIntString capId)
            { si with displayName := some nickname } }
        mutated := true }
    ∧ lookupA (handleChatCall now cs capId "identifyNick"
        [.str nickname, .str pw]).chatState.nickOwners nickname = some si.username
    ∧ lookupA (handleChatCall now cs capId "identifyNick"
        [.str nickname, .str pw]).chatState.sessionCaps (jsIntString capId) =
        some { si with displayName := some nickname } := by
  have h : handleChatCall now cs capId "identifyNick" [.str nickname, .str pw] =
      { result := .success (.obj [("status", .str "ok"),
          ("message", .str ("Successfully identified as " ++ sglQuote ++ nickname ++ sglQuote))])
        chatState := { cs with
          nickOwners := insertA cs.nickOwners nickname si.username
          sessionCaps := insertA cs.sessionCaps (jsIntString capId)
            { si with displayName := some nickname } }
        mutated := true } := by
    rw [handleChatCall.eq_def, if_neg hcap, hsess]
    simp [hreg, hne]
  refine ⟨h, ?_, ?_⟩
  · rw [h]
    exact lookupA_insertA_self _ _ _
  · rw [h]
    exact lookupA_insertA_self _ _ _

def c3State : ChatState :=
  { cloneDefaultChatState with
    sessionCaps := [("10000", ⟨"alice", none⟩)]
    registeredNicks := [("bob", "secret")]
    nickOwners := [("bob", "carol")] }

theorem c3_witness :
    handleChatCall 7 c3State 10000 "identifyNick" [.str "bob", .str "secret"] =
      { result := .success (.obj [("status", .str "ok"),
          ("message", .str ("Successfully identified as " ++ sglQuote ++ "bob" ++ sglQuote))])
        chatState := { c3State with
          nickOwners := insertA c3State.nickOwners "bob" "alice"
          sessionCaps := insertA c3State.sessionCaps (jsIntString 10000) ⟨"alice", some "bob"⟩ }
        mutated := true }
    ∧ lookupA (handleChatCall 7 c3State 10000 "identifyNick"
        [.str "bob", .str "secret"]).chatState.nickOwners "bob" = some "alice" := by
  have h := c3_identify_transfers_ownership 7 c3State 10000 ⟨"alice", none⟩ "bob" "secret"
    (by decide) rfl rfl (by decide)
  exact ⟨h.1, h.2.1⟩

/-! ## Claim C10 -/

theorem probeFrom_free_of_exists {caps : List (String × SessionInfo)} :
    ∀ (n : Nat) (id : Int),
      (∃ k : Nat, k < n ∧ lookupA caps (jsIntString (id + k)) = none) →
      lookupA caps (jsIntString (probeFrom n caps id)) = none := by
  intro n
  induction n with
  | zero =>
    intro id ⟨k, hk, _⟩
    omega
  | succ n ih =>
    intro id ⟨k, hk, hnone⟩
    rw [probeFrom]
    by_cases hs : (lookupA caps (jsIntString id)).isSome
    · rw [if_pos hs]
      apply ih
      rcases Nat.eq_zero_or_pos k with rfl | hpos
      · rw [show id + ((0 : Nat) : Int) = id by simp] at hnone
        rw [hnone] at hs
        simp at hs
      · refine ⟨k - 1, by omega, ?_⟩
        rw [show id + 1 + ((k - 1 : Nat) : Int) = id + k by
          have : ((k - 1 : Nat) : Int) = (k : Int) - 1 := by omega
          omega]
        exact hnone
    · rw [if_neg hs]
      exact Option.not_isSome_iff_eq_none.mp hs

theorem exists_free_probe_id (caps : List (String × SessionInfo)) (id : Int) :
    ∃ k : Nat, k < caps.length + 1 ∧ lookupA caps (jsIntString (id + k)) = none := by
  by_contra hc
  push_neg at hc
  have hforall : ∀ k ∈ List.range (caps.length + 1),
      (lookupA caps (jsIntString (id + k))).isSome = true := fun k hk =>
    Option.ne_none_iff_isSome.mp (hc k (List.mem_range.mp hk))
  have hnodup : ((List.range (caps.length + 1)).map
      fun k : Nat => jsIntString (id + k)).Nodup := by
    refine (List.nodup_range _).map ?_
    intro a b hab
    have := jsIntString_injective hab
    omega
  have hsub : ((List.range (caps.length + 1)).map fun k : Nat => jsIntString (id + k)) ⊆
      caps.map Prod.fst := by
    intro s hs
    rcases List.mem_map.mp hs with ⟨k, hk, rfl⟩
    exact lookupA_isSome_mem (hforall k hk)
  have hlen := (List.subperm_of_subset hnodup hsub).length_le
  simp at hlen

/-- The id produced by linear probing is always free: its decimal key is not
present in the capability table. -/
theorem probeCapId_free (caps : List (String × SessionInfo)) (start : Int) :
    lookupA caps (jsIntString (probeCapId caps start)) = none :=
  probeFrom_free_of_exists _ _ (exists_free_probe_id caps start)

/-- C10: `auth` on the global chat capability performs no credential check.
For every argument list whose first element is a string it succeeds,
allocates a fresh session capability id by probing (the minted key is
absent from `sessionCaps` beforehand), and binds the new session to the
synthesized username `guest-<capId>`; both the supplied username and any
further arguments (e.g. a password) are ignored, and the `credentials`
table is never consulted — the outcome is invariant under replacing it. -/
theorem c10_auth_guest_session (now : Int) (cs : ChatState) (u : String) (rest : List JValue) :
    handleChatCall now cs CHAT_CAPABILITY_ID "auth" (.str u :: rest) =
      { result := .success (.obj
          [("session", .obj [("_type", .str "capability"),
            ("id", .num (probeCapId cs.sessionCaps cs.nextSessionCapId))])
          , ("user", .str ("guest-" ++ jsIntString (probeCapId cs.sessionCaps cs.nextSessionCapId)))])
        chatState := { cs with
          nextSessionCapId := probeCapId cs.sessionCaps cs.nextSessionCapId + 1
          sessionCaps := insertA cs.sessionCaps
            (jsIntString (probeCapId cs.sessionCaps cs.nextSessionCapId))
            ⟨"guest-" ++ jsIntString (probeCapId cs.sessionCaps cs.nextSessionCapId), none⟩ }
        mutated := true }
    ∧ lookupA cs.sessionCaps
        (jsIntString (probeCapId cs.sessionCaps cs.nextSessionCapId)) = none
    ∧ ∀ (creds : List (String × String)) (u' : String) (rest' : List JValue),
        (handleChatCall now { cs with credentials := creds }
            CHAT_CAPABILITY_ID "auth" (.str u' :: rest')).result =
          (handleChatCall now cs CHAT_CAPABILITY_ID "auth" (.str u :: rest)).result := by
  have hbase : ∀ (cs' : ChatState), handleChatCall now cs' CHAT_CAPABILITY_ID "auth"
      (.str u :: rest) =
      { result := .success (.obj
          [("session", .obj [("_type", .str "capability"),
            ("id", .num (probeCapId cs'.sessionCaps cs'.nextSessionCapId))])
          , ("user", .str ("guest-" ++ jsIntString (probeCapId cs'.sessionCaps cs'.nextSessionCapId)))])
        chatState := { cs' with
          nextSessionCapId := probeCapId cs'.sessionCaps cs'.nextSessionCapId + 1
          sessionCaps := insertA cs'.sessionCaps
            (jsIntString (probeCapId cs'.sessionCaps cs'.nextSessionCapId))
            ⟨"guest-" ++ jsIntString (probeCapId cs'.sessionCaps cs'.nextSessionCapId), none⟩ }
        mutated := true } := by
    intro cs'
    rw [handleChatCall.eq_def, if_pos rfl]
    simp
  refine ⟨hbase cs, probeCapId_free _ _, ?_⟩
  intro creds u' rest'
  have h2 : ∀ (cs' : ChatState) (v : String) (vs : List JValue),
      (handleChatCall now cs' CHAT_CAPABILITY_ID "auth" (.str v :: vs)).result =
      .success (.obj
          [("session", .obj [("_type", .str "capability"),
            ("id", .num (probeCapId cs'.sessionCaps cs'.nextSessionCapId))])
          , ("user", .str ("guest-" ++ jsIntString (probeCapId cs'.sessionCaps cs'.nextSessionCapId)))]) := by
    intro cs' v vs
    rw [handleChatCall.eq_def, if_pos rfl]
    simp
  rw [h2, h2]

/-! ## Claim C4 -/

def countTokensFor (u : String) (m : List (String × NickTokenInfo)) : Nat :=
  (m.filter fun kv => kv.2.username == u).length

theorem perm_insSortedDesc (x : String × NickTokenInfo)
    (l : List (String × NickTokenInfo)) : (insSortedDesc x l).Perm (x :: l) := by
  induction l with
  | nil => exact List.Perm.refl _
  | cons y ys ih =>
    rw [insSortedDesc]
    by_cases h : y.2.issuedAt ≤ x.2.issuedAt
    · rw [if_pos h]
    · rw [if_neg h]
      exact (ih.cons y).trans (List.Perm.swap x y ys)

theorem perm_sortByIssuedAtDesc (l : List (String × NickTokenInfo)) :
    (sortByIssuedAtDesc l).Perm l := by
  induction l with
  | nil => exact List.Perm.refl _
  | cons x xs ih =>
    rw [sortByIssuedAtDesc]
    exact (perm_insSortedDesc x (sortByIssuedAtDesc xs)).trans (ih.cons x)

/-- After `storeNickToken`'s insert-and-prune update, at most five tokens
belong to the calling session's username. -/
theorem storeTokenUpdate_le_five (now : Int) (tokens : List (String × NickTokenInfo))
    (si : SessionInfo) (token : String) :
    countTokensFor si.username (storeTokenUpdate now tokens si token) ≤ 5 := by
  unfold storeTokenUpdate countTokensFor
  set inserted := insertA tokens token
    ⟨si.username,
      (match si.displayName with
       | some d => if d != "" then some d else none
       | none => none), now, some now⟩ with hins
  set F := inserted.filter (fun kv => kv.2.username == si.username) with hF
  set sortD := sortByIssuedAtDesc F with hsort
  set toDelete := (sortD.drop 5).map Prod.fst with hdel
  have hcomm : ((inserted.filter fun kv => !(toDelete.contains kv.1)).filter
      fun kv => kv.2.username == si.username) =
      F.filter fun kv => !(toDelete.contains kv.1) := by
    rw [hF, List.filter_filter, List.filter_filter]
    exact List.filter_congr fun kv _ => Bool.and_comm _ _
  rw [hcomm]
  have hperm : (F.filter fun kv => !(toDelete.contains kv.1)).length =
      (sortD.filter fun kv => !(toDelete.contains kv.1)).length :=
    (((perm_sortByIssuedAtDesc F).symm).filter _).length_eq
  rw [hperm]
  have hsplit : sortD.filter (fun kv => !(toDelete.contains kv.1)) =
      (sortD.take 5).filter (fun kv => !(toDelete.contains kv.1)) ++
      (sortD.drop 5).filter (fun kv => !(toDelete.contains kv.1)) := by
    conv_lhs => rw [← List.take_append_drop 5 sortD]
    rw [List.filter_append]
  have hdrop : (sortD.drop 5).filter (fun kv => !(toDelete.contains kv.1)) = [] := by
    rw [List.filter_eq_nil_iff]
    intro kv hkv
    have hmemdel : kv.1 ∈ toDelete := by
      rw [hdel]
      exact List.mem_map_of_mem Prod.fst hkv
    simpa using hmemdel
  rw [hsplit, hdrop, List.length_append, List.length_nil]
  calc ((sortD.take 5).filter fun kv => !(toDelete.contains kv.1)).length + 0
      ≤ (sortD.take 5).length + 0 := by
        exact Nat.add_le_add_right (List.length_filter_le _ _) 0
    _ ≤ 5 := by simpa using List.length_take_le 5 sortD

def c4SessState : ChatState :=
  { cloneDefaultChatState with sessionCaps := [("10000", ⟨"alice", none⟩)] }

/-- Six consecutive `storeNickToken` dispatches with distinct tokens on
alice's session, at times 1..6. -/
def c4Chain6 : ChatState :=
  (handleChatCall 6 (handleChatCall 5 (handleChatCall 4 (handleChatCall 3 (handleChatCall 2
    (handleChatCall 1 c4SessState 10000 "storeNickToken" [.str "t1"]).chatState
    10000 "storeNickToken" [.str "t2"]).chatState
    10000 "storeNickToken" [.str "t3"]).chatState
    10000 "storeNickToken" [.str "t4"]).chatState
    10000 "storeNickToken" [.str "t5"]).chatState
    10000 "storeNickToken" [.str "t6"]).chatState

/-- ChatState reached by loading the persisted document below: six tokens
already belong to `"alice"`, and capability `10001` is bob's session. -/
def c4Raw : JValue :=
  .obj [("sessionCaps", .obj [("10001", .obj [("username", .str "bob")])])
      , ("nickTokens", .obj
          [("a1", .obj [("username", .str "alice"), ("issuedAt", .num 1)])
          ,("a2", .obj [("username", .str "alice"), ("issuedAt", .num 2)])
          ,("a3", .obj [("username", .str "alice"), ("issuedAt", .num 3)])
          ,("a4", .obj [("username", .str "alice"), ("issuedAt", .num 4)])
          ,("a5", .obj [("username", .str "alice"), ("issuedAt", .num 5)])
          ,("a6", .obj [("username", .str "alice"), ("issuedAt", .num 6)])])]

def c4State : ChatState := normalizeChatState 0 c4Raw

/-- C4 counterexample: the claim quantifies over *every* username, but a
`storeNickToken` call only prunes the tokens of the calling session's
username.  Starting from a normalized persisted state in which `"alice"`
already owns six tokens, a call on bob's session leaves all six alice
tokens in place — more than five. -/
theorem c4_counterexample :
    5 < countTokensFor "alice"
      (handleChatCall 99 c4State 10001 "storeNickToken" [.str "tok"]).chatState.nickTokens := by
  decide

/-- C4 (amended): after any `storeNickToken` call with a non-empty
(trimmed) token on a session present in `sessionCaps`, the `nickTokens`
table contains at most 5 entries whose username equals the *calling
session's* username (tokens of other usernames are not pruned); in
particular, calling `storeNickToken` 6 times with 6 distinct token strings
on a session of one username, at strictly increasing times, leaves exactly
5 tokens for that username — the 5 with the greatest `issuedAt`. -/
theorem c4_store_token_bound
    (now : Int) (cs : ChatState) (capId : Int) (si : SessionInfo) (rawToken : String)
    (hcap : capId ≠ CHAT_CAPABILITY_ID)
    (hsess : lookupA cs.sessionCaps (jsIntString capId) = some si)
    (hne : trimString rawToken ≠ "") :
    countTokensFor si.username
      (handleChatCall now cs capId "storeNickToken" [.str rawToken]).chatState.nickTokens ≤ 5
    ∧ (c4Chain6.nickTokens.map Prod.fst = ["t2", "t3", "t4", "t5", "t6"]
        ∧ ∀ kv ∈ c4Chain6.nickTokens, kv.2.username = "alice" ∧ 2 ≤ kv.2.issuedAt) := by
  constructor
  · have h : (handleChatCall now cs capId "storeNickToken" [.str rawToken]).chatState.nickTokens =
        storeTokenUpdate now cs.nickTokens si (trimString rawToken) := by
      rw [handleChatCall.eq_def, if_neg hcap, hsess]
      simp [hne]
    rw [h]
    exact storeTokenUpdate_le_five now cs.nickTokens si (trimString rawToken)
  · exact ⟨by decide, by decide⟩

theorem c4_witness :
    countTokensFor "alice"
      (handleChatCall 1 c4SessState 10000 "storeNickToken" [.str "t1"]).chatState.nickTokens ≤ 5 :=
  (c4_store_token_bound 1 c4SessState 10000 ⟨"alice", none⟩ "t1" (by decide) rfl (by decide)).1

/-! ## Claim C6 -/

theorem broadcastRun_spec (fails : Nat → Bool) :
    ∀ (snap members delivered : List Nat), members.Nodup →
      broadcastRun fails snap members delivered =
        (members.filter fun c => !(fails c && snap.contains c),
          delivered ++ snap.filter fun c => !fails c) := by
  intro snap
  induction snap with
  | nil =>
    intro members delivered _
    simp [broadcastRun]
  | cons c rest ih =>
    intro members delivered hnd
    rw [broadcastRun]
    by_cases hf : fails c
    · rw [if_pos hf, ih (members.erase c) delivered (hnd.erase c)]
      simp only [Prod.mk.injEq]
      refine ⟨?_, ?_⟩
      · rw [List.Nodup.erase_eq_filter hnd, List.filter_filter]
        refine List.filter_congr fun x _ => ?_
        by_cases hx : x = c
        · subst hx
          simp [hf]
        · simp [hx, Ne.symm hx]
      · rw [List.filter_cons, if_neg (by simp [hf])]
    · rw [if_neg hf, ih members (delivered ++ [c]) hnd]
      simp only [Prod.mk.injEq]
      refine ⟨?_, ?_⟩
      · refine List.filter_congr fun x _ => ?_
        by_cases hx : x = c
        · subst hx
          simp [hf]
        · simp [hx]
      · rw [List.filter_cons, if_pos (by simp [hf])]
        simp

theorem broadcastMessage_filter (fails : Nat → Bool) (clients : List Nat)
    (hnd : clients.Nodup) :
    broadcastMessage fails clients =
      (clients.filter fun c => !fails c, clients.filter fun c => !fails c) := by
  unfold broadcastMessage
  rw [broadcastRun_spec fails clients clients [] hnd]
  simp only [Prod.mk.injEq, List.nil_append]
  refine ⟨List.filter_congr fun x hx => ?_, trivial⟩
  have hcont : clients.contains x = true := by
    rw [List.contains]
    exact List.elem_iff.mpr hx
  rw [hcont]
  simp

/-- C6: for the current set of live client members, a broadcast triggered by
the server's `sendMessage` attempts delivery to every member; the members
whose delivery throws are exactly those removed from the member set, every
non-failing member still receives the message (failures do not abort the
loop), and the triggering `sendMessage` still returns its success result
`{status:"ok", echo}` together with the appended message. -/
theorem c6_broadcast_isolation
    (now : Int) (fails : Nat → Bool) (clients : List Nat) (sto : Storage)
    (capId : Int) (msg : String) (si : SessionInfo)
    (hnd : clients.Nodup)
    (hs : lookupA (loadChatState now sto).sessionCaps (jsIntString capId) = some si) :
    serverSendMessage now fails clients sto capId msg =
      .ok (.obj [("status", .str "ok"), ("echo", .str msg)],
        { sto with chatState := some (chatStateToJson
            { loadChatState now sto with
              messages := (loadChatState now sto).messages ++
                [⟨si.displayName.getD si.username, msg, now⟩] }) },
        clients.filter fun c => !fails c,
        clients.filter fun c => !fails c)
    ∧ (∀ c ∈ clients, fails c = false →
        c ∈ (broadcastMessage fails clients).2 ∧ c ∈ (broadcastMessage fails clients).1)
    ∧ (∀ c ∈ clients, fails c = true → c ∉ (broadcastMessage fails clients).1) := by
  have hb := broadcastMessage_filter fails clients hnd
  refine ⟨?_, ?_, ?_⟩
  · unfold serverSendMessage
    dsimp only
    rw [hs, hb]
  · intro c hc hok
    rw [hb]
    exact ⟨List.mem_filter.mpr ⟨hc, by simp [hok]⟩, List.mem_filter.mpr ⟨hc, by simp [hok]⟩⟩
  · intro c hc hbad
    rw [hb]
    intro hmem
    have := (List.mem_filter.mp hmem).2
    simp [hbad] at this

def c6Sto : Storage :=
  { chatState := some (.obj [("sessionCaps",
      .obj [("10000", .obj [("username", .str "alice"), ("displayName", .str "wonder")])])]) }

/-- Delivery to client 2 throws; clients 1 and 3 receive the message. -/
def c6Fails : Nat → Bool := fun c => c == 2

theorem c6_witness :
    serverSendMessage 50 c6Fails [1, 2, 3] c6Sto 10000 "hi" =
      .ok (.obj [("status", .str "ok"), ("echo", .str "hi")],
        { c6Sto with chatState := some (chatStateToJson
            { loadChatState 50 c6Sto with
              messages := (loadChatState 50 c6Sto).messages ++ [⟨"wonder", "hi", 50⟩] }) },
        [1, 3], [1, 3]) := by
  have h := (c6_broadcast_isolation 50 c6Fails [1, 2, 3] c6Sto 10000 "hi"
    ⟨"alice", some "wonder"⟩ (by decide) rfl).1
  simpa using h

/-! ## Claim C7 -/

theorem asArr_eq {v : JValue} {l : List JValue} (h : asArr v = some l) : v = .arr l := by
  cases v <;> simp [asArr] at h <;> rw [h]

theorem asNum_eq {v : JValue} {n : Int} (h : asNum v = some n) : v = .num n := by
  cases v <;> simp [asNum] at h <;> rw [h]

theorem asStr_eq {v : JValue} {s : String} (h : asStr v = some s) : v = .str s := by
  cases v <;> simp [asStr] at h <;> rw [h]

theorem tagIs_eq {l : List JValue} {tag : String} (h : tagIs l tag = true) :
    l[0]? = some (JValue.str tag) := by
  unfold tagIs at h
  split at h
  · rename_i t heq
    rw [heq]
    simp at h
    rw [h]
  · cases h

/-- The shape `tryHandleChatBatch` requires of a parsed two-line batch:
push/pull/call tags, numeric capability and import ids, a string method
path head and an array of arguments. -/
def hasChatShape (pushOp pullOp : JValue) : Prop :=
  ∃ ps qs callList pathList capId importId method args,
    pushOp = JValue.arr ps ∧ ps[0]? = some (JValue.str "push") ∧
    pullOp = JValue.arr qs ∧ qs[0]? = some (JValue.str "pull") ∧
    qs[1]? = some (JValue.num importId) ∧
    ps[1]? = some (JValue.arr callList) ∧
    callList[0]? = some (JValue.str "call") ∧
    callList[1]? = some (JValue.num capId) ∧
    callList[2]? = some (JValue.arr pathList) ∧
    pathList[0]? = some (JValue.str method) ∧
    callList[3]? = some (JValue.arr args)

theorem decodeChatBatch_shape {parse : String → Option JValue} {payload : String}
    {t : Int × Int × String × List JValue}
    (h : decodeChatBatch parse payload = some t) :
    ∃ l0 l1 pushOp pullOp, splitLines payload = [l0, l1] ∧
      parse l0 = some pushOp ∧ parse l1 = some pullOp ∧ hasChatShape pushOp pullOp := by
  unfold decodeChatBatch at h
  split at h
  case h_2 => exact absurd h (by simp)
  case h_1 s0 s1 heq =>
    refine ⟨s0, s1, ?_⟩
    rcases hp0 : parse s0 with _ | pushOp
    · rw [hp0] at h; simp at h
    rcases hp1 : parse s1 with _ | pullOp
    · rw [hp0, hp1] at h; simp at h
    rw [hp0, hp1] at h
    simp only [Option.some_bind, Option.bind_eq_some] at h
    obtain ⟨ps, hps, h⟩ := h
    refine ⟨pushOp, pullOp, heq, rfl, rfl, ?_⟩
    rcases htag1 : tagIs ps "push" with _ | _
    · rw [htag1] at h; simp at h
    rw [htag1, if_pos rfl] at h
    simp only [Option.bind_eq_some] at h
    obtain ⟨qs, hqs, h⟩ := h
    rcases htag2 : tagIs qs "pull" with _ | _
    · rw [htag2] at h; simp at h
    rw [htag2, if_pos rfl] at h
    simp only [Option.bind_eq_some] at h
    obtain ⟨importId, himp, h⟩ := h
    obtain ⟨callV, hcallV, h⟩ := h
    obtain ⟨callList, hcl, h⟩ := h
    rcases htag3 : tagIs callList "call" with _ | _
    · rw [htag3] at h; simp at h
    rw [htag3, if_pos rfl] at h
    simp only [Option.bind_eq_some] at h
    obtain ⟨capId, hcap, h⟩ := h
    obtain ⟨method, hmeth, h⟩ := h
    by_cases hme : method = ""
    · rw [if_pos hme] at h; cases h
    rw [if_neg hme] at h
    simp only [Option.bind_eq_some] at h
    obtain ⟨args, hargs, -⟩ := h
    -- decompose the accessor facts into the raw shape
    obtain ⟨impV, himpV, himpN⟩ := himp
    obtain ⟨capV, hcapV, hcapN⟩ := hcap
    obtain ⟨pathO, ⟨pathV, hpathV, hpathA⟩, methV, hmethV, hmethS⟩ := hmeth
    obtain ⟨argsV, hargsV, hargsA⟩ := hargs
    refine ⟨ps, qs, callList, pathO, capId, importId, method, args,
      asArr_eq hps, tagIs_eq htag1, asArr_eq hqs, tagIs_eq htag2, ?_, ?_, tagIs_eq htag3,
      ?_, ?_, ?_, ?_⟩
    · rw [himpV, asNum_eq himpN]
    · rw [hcallV, asArr_eq hcl]
    · rw [hcapV, asNum_eq hcapN]
    · rw [hpathV, asArr_eq hpathA]
    · rw [hmethV, asStr_eq hmethS]
    · rw [hargsV, asArr_eq hargsA]

/-- C7: for every input string whose non-empty trimmed line count is not
exactly 2, or whose lines fail to parse as JSON, or whose parsed operations
lack the expected push/pull/call tags, a numeric capability id and import
id, a string method path, or an array of arguments, the chat batch handler
returns the absence signal (`none`) — it does not throw — so control falls
through to the next handler.  The single hypothesis covers all three
failure modes at once: it is vacuous unless the payload has exactly two
lines that both parse. -/
theorem c7_malformed_batch_not_recognized
    (now : Int) (parse : String → Option JValue) (payload : String) (sto : Storage)
    (h : ∀ l0 l1 pushOp pullOp, splitLines payload = [l0, l1] →
      parse l0 = some pushOp → parse l1 = some pullOp → ¬ hasChatShape pushOp pullOp) :
    tryHandleChatBatch now parse payload sto = none := by
  rw [tryHandleChatBatch]
  rcases hdec : decodeChatBatch parse payload with _ | t
  · rfl
  · obtain ⟨l0, l1, pushOp, pullOp, heq, hp0, hp1, hshape⟩ := decodeChatBatch_shape hdec
    exact absurd hshape (h l0 l1 pushOp pullOp heq hp0 hp1)

theorem c7_witness :
    tryHandleChatBatch 0 (fun _ => none) "this is not a batch" { chatState := none } = none :=
  c7_malformed_batch_not_recognized 0 (fun _ => none) "this is not a batch" { chatState := none }
    (fun l0 l1 pushOp pullOp _ hp0 _ _ => Option.noConfusion hp0)

/-! ## Claim C8 -/

/-- The capability-table invariant of the claim: every key of `sessionCaps`
is the decimal rendering of an integer in `[SESSION_CAPABILITY_START,
nextSessionCapId)`, and the next id to allocate is itself at least the
session floor. -/
def capInvariant (cs : ChatState) : Prop :=
  SESSION_CAPABILITY_START ≤ cs.nextSessionCapId ∧
  ∀ kv ∈ cs.sessionCaps, ∃ j : Int,
    kv.1 = jsIntString j ∧ SESSION_CAPABILITY_START ≤ j ∧ j < cs.nextSessionCapId

def c8Raw : JValue :=
  .obj [("sessionCaps", .obj [("20000", .obj [("username", .str "x")])])]

def c8State : ChatState := normalizeChatState 0 c8Raw

/-- C8 counterexample: normalizing arbitrary persisted input does *not*
establish the invariant.  The stored document below restores a session key
`"20000"` while `nextSessionCapId` is absent, so normalization defaults it
to 10000 — smaller than the existing key, violating "nextSessionCapId is
strictly greater than every existing sessionCaps key". -/
theorem c8_counterexample :
    c8State.sessionCaps = [("20000", ⟨"x", none⟩)] ∧
    c8State.nextSessionCapId = 10000 ∧
    ¬ capInvariant c8State := by
  refine ⟨rfl, rfl, ?_⟩
  rintro ⟨-, hkeys⟩
  obtain ⟨j, hj, hge, hlt⟩ := hkeys ("20000", ⟨"x", none⟩)
    (by rw [show c8State.sessionCaps = [("20000", ⟨"x", none⟩)] from rfl]
        exact List.mem_singleton.mpr rfl)
  have hround := parseIntDec_jsIntString j
  rw [← hj] at hround
  have h20000 : parseIntDec "20000" = some 20000 := by decide
  rw [h20000] at hround
  obtain rfl := Option.some.inj hround
  have hnext : c8State.nextSessionCapId = 10000 := rfl
  rw [hnext] at hlt
  norm_num at hlt

theorem capInvariant_same {cs cs' : ChatState} (hinv : capInvariant cs)
    (hcaps : cs'.sessionCaps = cs.sessionCaps)
    (hnext : cs'.nextSessionCapId = cs.nextSessionCapId) : capInvariant cs' := by
  obtain ⟨h1, h2⟩ := hinv
  refine ⟨by rw [hnext]; exact h1, ?_⟩
  intro kv hkv
  rw [hcaps] at hkv
  obtain ⟨j, hj⟩ := h2 kv hkv
  exact ⟨j, hj.1, hj.2.1, by rw [hnext]; exact hj.2.2⟩

/-- Under the invariant the probe finds `nextSessionCapId` itself free and
returns it unchanged. -/
theorem probeCapId_eq_of_inv {cs : ChatState} (hinv : capInvariant cs) :
    probeCapId cs.sessionCaps cs.nextSessionCapId = cs.nextSessionCapId := by
  obtain ⟨hstart, hkeys⟩ := hinv
  have hlk : lookupA cs.sessionCaps (jsIntString cs.nextSessionCapId) = none := by
    by_contra hne
    rcases Option.isSome_iff_exists.mp (Option.ne_none_iff_isSome.mp hne) with ⟨v, hv⟩
    obtain ⟨j, hj, hge, hlt⟩ := hkeys _ (lookupA_some_mem hv)
    have : j = cs.nextSessionCapId := jsIntString_injective hj.symm
    omega
  rw [probeCapId, probeFrom, hlk]
  simp

theorem capInvariant_insert_fresh {cs cs' : ChatState} (hinv : capInvariant cs)
    (si : SessionInfo)
    (hcaps : cs'.sessionCaps = insertA cs.sessionCaps
      (jsIntString (probeCapId cs.sessionCaps cs.nextSessionCapId)) si)
    (hnext : cs'.nextSessionCapId = probeCapId cs.sessionCaps cs.nextSessionCapId + 1) :
    capInvariant cs' := by
  obtain ⟨hstart, hkeys⟩ := hinv
  have hp := probeCapId_eq_of_inv ⟨hstart, hkeys⟩
  refine ⟨by rw [hnext, hp]; omega, ?_⟩
  intro kv hkv
  rw [hcaps] at hkv
  rcases mem_insertA _ _ _ kv hkv with rfl | hold
  · exact ⟨probeCapId cs.sessionCaps cs.nextSessionCapId, rfl,
      by rw [hp]; exact hstart, by rw [hnext]; omega⟩
  · obtain ⟨j, hj, hge, hlt⟩ := hkeys kv hold
    exact ⟨j, hj, hge, by rw [hnext, hp]; omega⟩

theorem capInvariant_update_key {cs cs' : ChatState} (hinv : capInvariant cs)
    {k : String} {si₀ : SessionInfo} (si : SessionInfo)
    (hlk : lookupA cs.sessionCaps k = some si₀)
    (hcaps : cs'.sessionCaps = insertA cs.sessionCaps k si)
    (hnext : cs'.nextSessionCapId = cs.nextSessionCapId) : capInvariant cs' := by
  obtain ⟨hstart, hkeys⟩ := hinv
  refine ⟨by rw [hnext]; exact hstart, ?_⟩
  intro kv hkv
  rw [hcaps] at hkv
  rcases mem_insertA _ _ _ kv hkv with rfl | hold
  · obtain ⟨j, hj, hge, hlt⟩ := hkeys _ (lookupA_some_mem hlk)
    exact ⟨j, hj, hge, by rw [hnext]; exact hlt⟩
  · obtain ⟨j, hj, hge, hlt⟩ := hkeys kv hold
    exact ⟨j, hj, hge, by rw [hnext]; exact hlt⟩

theorem handleChatCall_preserves_inv (now : Int) (cs : ChatState) (capId : Int)
    (method : String) (args : List JValue) (hinv : capInvariant cs) :
    capInvariant (handleChatCall now cs capId method args).chatState := by
  rw [handleChatCall.eq_def]
  by_cases hc : capId = CHAT_CAPABILITY_ID
  · rw [if_pos hc]
    by_cases h1 : method = "auth"
    · rw [if_pos h1]
      rcases args with _ | ⟨a, rest⟩
      · exact capInvariant_same hinv rfl rfl
      · rcases a with _ | ⟨b0⟩ | ⟨n0⟩ | ⟨s0⟩ | ⟨l0⟩ | ⟨f0⟩ <;>
          first
            | exact capInvariant_insert_fresh hinv _ rfl rfl
            | exact capInvariant_same hinv rfl rfl
    rw [if_neg h1]
    by_cases h2 : method = "redeemNickToken"
    · rw [if_pos h2]
      rcases args with _ | ⟨a, rest⟩
      · exact capInvariant_same hinv rfl rfl
      rcases a with _ | ⟨b0⟩ | ⟨n0⟩ | ⟨rawToken⟩ | ⟨l0⟩ | ⟨f0⟩ <;>
        [skip; exact capInvariant_same hinv rfl rfl;
         exact capInvariant_same hinv rfl rfl; skip;
         exact capInvariant_same hinv rfl rfl; exact capInvariant_same hinv rfl rfl]
      · exact capInvariant_same hinv rfl rfl
      rcases rest with _ | ⟨b, restTail⟩
      · dsimp only
        by_cases htok : trimString rawToken = ""
        · rw [if_pos htok]
          exact capInvariant_same hinv rfl rfl
        rw [if_neg htok]
        rcases hlk : lookupA cs.nickTokens (trimString rawToken) with _ | info
        · exact capInvariant_same hinv rfl rfl
        · exact capInvariant_insert_fresh hinv _ rfl rfl
      · exact capInvariant_same hinv rfl rfl
    rw [if_neg h2]
    by_cases h3 : method = "sendMessage" || method = "receiveMessages"
    · rw [if_pos h3]
      exact capInvariant_same hinv rfl rfl
    · rw [if_neg h3]
      exact capInvariant_same hinv rfl rfl
  · rw [if_neg hc]
    rcases hsess : lookupA cs.sessionCaps (jsIntString capId) with _ | si
    · exact capInvariant_same hinv rfl rfl
    dsimp only
    by_cases h1 : method = "sendMessage"
    · rw [if_pos h1]
      rcases args with _ | ⟨a, rest⟩
      · exact capInvariant_same hinv rfl rfl
      rcases a with _ | ⟨b0⟩ | ⟨n0⟩ | ⟨s0⟩ | ⟨l0⟩ | ⟨f0⟩ <;>
        first
          | (rcases rest with _ | ⟨b, restTail⟩ <;> exact capInvariant_same hinv rfl rfl)
          | exact capInvariant_same hinv rfl rfl
    rw [if_neg h1]
    by_cases h2 : method = "receiveMessages"
    · rw [if_pos h2]
      rcases args with _ | ⟨a, rest⟩ <;> exact capInvariant_same hinv rfl rfl
    rw [if_neg h2]
    by_cases h3 : method = "registerNick"
    · rw [if_pos h3]
      rcases args with _ | ⟨a, rest⟩
      · exact capInvariant_same hinv rfl rfl
      rcases a with _ | ⟨b0⟩ | ⟨n0⟩ | ⟨nickname⟩ | ⟨l0⟩ | ⟨f0⟩ <;>
        [skip; exact capInvariant_same hinv rfl rfl;
         exact capInvariant_same hinv rfl rfl; skip;
         exact capInvariant_same hinv rfl rfl; exact capInvariant_same hinv rfl rfl]
      · exact capInvariant_same hinv rfl rfl
      rcases rest with _ | ⟨b, rest2⟩
      · exact capInvariant_same hinv rfl rfl
      rcases b with _ | ⟨b1⟩ | ⟨n1⟩ | ⟨password⟩ | ⟨l1⟩ | ⟨f1⟩ <;>
        [skip; exact capInvariant_same hinv rfl rfl;
         exact capInvariant_same hinv rfl rfl; skip;
         exact capInvariant_same hinv rfl rfl; exact capInvariant_same hinv rfl rfl]
      · exact capInvariant_same hinv rfl rfl
      rcases rest2 with _ | ⟨c, rest3⟩
      · dsimp only
        by_cases hreg : truthyStrOpt (lookupA cs.registeredNicks nickname) = true
        · rw [if_pos hreg]
          exact capInvariant_same hinv rfl rfl
        · rw [if_neg hreg]
          exact capInvariant_update_key hinv _ hsess rfl rfl
      · exact capInvariant_same hinv rfl rfl
    rw [if_neg h3]
    by_cases h4 : method = "identifyNick"
    · rw [if_pos h4]
      rcases args with _ | ⟨a, rest⟩
      · exact capInvariant_same hinv rfl rfl
      rcases a with _ | ⟨b0⟩ | ⟨n0⟩ | ⟨nickname⟩ | ⟨l0⟩ | ⟨f0⟩ <;>
        [skip; exact capInvariant_same hinv rfl rfl;
         exact capInvariant_same hinv rfl rfl; skip;
         exact capInvariant_same hinv rfl rfl; exact capInvariant_same hinv rfl rfl]
      · exact capInvariant_same hinv rfl rfl
      rcases rest with _ | ⟨b, rest2⟩
      · exact capInvariant_same hinv rfl rfl
      rcases b with _ | ⟨b1⟩ | ⟨n1⟩ | ⟨password⟩ | ⟨l1⟩ | ⟨f1⟩ <;>
        [skip; exact capInvariant_same hinv rfl rfl;
         exact capInvariant_same hinv rfl rfl; skip;
         exact capInvariant_same hinv rfl rfl; exact capInvariant_same hinv rfl rfl]
      · exact capInvariant_same hinv rfl rfl
      rcases rest2 with _ | ⟨c, rest3⟩
      · dsimp only
        rcases hreg : lookupA cs.registeredNicks nickname with _ | storedPw
        · exact capInvariant_same hinv rfl rfl
        dsimp only
        by_cases he : storedPw = ""
        · rw [if_pos he]
          exact capInvariant_same hinv rfl rfl
        rw [if_neg he]
        by_cases hpw : storedPw ≠ password
        · rw [if_pos hpw]
          exact capInvariant_same hinv rfl rfl
        · rw [if_neg hpw]
          exact capInvariant_update_key hinv _ hsess rfl rfl
      · exact capInvariant_same hinv rfl rfl
    rw [if_neg h4]
    by_cases h5 : method = "checkNick"
    · rw [if_pos h5]
      rcases args with _ | ⟨a, rest⟩
      · exact capInvariant_same hinv rfl rfl
      rcases a with _ | ⟨b0⟩ | ⟨n0⟩ | ⟨s0⟩ | ⟨l0⟩ | ⟨f0⟩ <;>
        first
          | (rcases rest with _ | ⟨b, restTail⟩ <;> exact capInvariant_same hinv rfl rfl)
          | exact capInvariant_same hinv rfl rfl
    rw [if_neg h5]
    by_cases h6 : method = "storeNickToken"
    · rw [if_pos h6]
      rcases args with _ | ⟨a, rest⟩
      · exact capInvariant_same hinv rfl rfl
      rcases a with _ | ⟨b0⟩ | ⟨n0⟩ | ⟨rawToken⟩ | ⟨l0⟩ | ⟨f0⟩ <;>
        [skip; exact capInvariant_same hinv rfl rfl;
         exact capInvariant_same hinv rfl rfl; skip;
         exact capInvariant_same hinv rfl rfl; exact capInvariant_same hinv rfl rfl]
      · exact capInvariant_same hinv rfl rfl
      rcases rest with _ | ⟨b, restTail⟩
      · dsimp only
        by_cases htok : trimString rawToken = ""
        · rw [if_pos htok]
          exact capInvariant_same hinv rfl rfl
        · rw [if_neg htok]
          exact capInvariant_same hinv rfl rfl
      · exact capInvariant_same hinv rfl rfl
    rw [if_neg h6]
    by_cases h7 : method = "whoami"
    · rw [if_pos h7]
      exact capInvariant_same hinv rfl rfl
    · rw [if_neg h7]
      exact capInvariant_same hinv rfl rfl

/-- C8 (amended): the invariant — every `sessionCaps` key is the decimal
form of an integer ≥ `SESSION_CAPABILITY_START` (10000) and
`nextSessionCapId` exceeds every existing key — is *preserved* by every
dispatched chat operation, and normalization guarantees
`nextSessionCapId ≥ SESSION_CAPABILITY_START`; but normalization of
arbitrary persisted input does not establish the key bounds themselves
(see the counterexample), so the invariant holds on states reachable from
the default state by dispatched operations, not on every normalized load. -/
theorem c8_invariant_preserved (now : Int) (cs : ChatState) (capId : Int)
    (method : String) (args : List JValue) (v : JValue) (hinv : capInvariant cs) :
    capInvariant (handleChatCall now cs capId method args).chatState
    ∧ SESSION_CAPABILITY_START ≤ (normalizeChatState now v).nextSessionCapId
    ∧ capInvariant cloneDefaultChatState := by
  refine ⟨handleChatCall_preserves_inv now cs capId method args hinv, ?_, ?_⟩
  · rw [normalizeChatState]
    by_cases hb : !truthyJ v || !isObjLike v
    · rw [if_pos hb]
      norm_num [cloneDefaultChatState, DEFAULT_CHAT_STATE]
    · rw [if_neg hb]
      dsimp only
      rcases hf : getFieldJ v "nextSessionCapId" with _ | w
      · norm_num [cloneDefaultChatState, DEFAULT_CHAT_STATE]
      · cases w <;> simp [cloneDefaultChatState, DEFAULT_CHAT_STATE, le_max_left]
  · refine ⟨by norm_num [cloneDefaultChatState, DEFAULT_CHAT_STATE], ?_⟩
    intro kv hkv
    simp [cloneDefaultChatState, DEFAULT_CHAT_STATE] at hkv

theorem c8_witness : capInvariant c3Step1.chatState ∧
    SESSION_CAPABILITY_START ≤ (normalizeChatState 0 c8Raw).nextSessionCapId := by
  have hbase : capInvariant cloneDefaultChatState :=
    (c8_invariant_preserved 1 cloneDefaultChatState CHAT_CAPABILITY_ID "auth"
      [.str "x"] JValue.null (by
        refine ⟨by norm_num [cloneDefaultChatState, DEFAULT_CHAT_STATE], ?_⟩
        intro kv hkv
        simp [cloneDefaultChatState, DEFAULT_CHAT_STATE] at hkv)).2.2
  have h := c8_invariant_preserved 1 cloneDefaultChatState CHAT_CAPABILITY_ID "auth"
    [.str "x"] c8Raw hbase
  exact ⟨h.1, h.2.1⟩

/-! ## Claim C9 -/

def c9Sto : Storage := { chatState := none, callCount := some 7 }

def c9StatsParse : String → Option JValue := fun s =>
  if s = "S" then
    some (.arr [.str "push", .arr [.str "call", .num 0, .arr [.str "stats"], .arr []]])
  else if s = "P" then some (.arr [.str "pull", .num 3])
  else none

/-- C9 counterexample: the stats batch is successfully dispatched — it is
answered with a `["result", ...]` envelope, not passed over — yet the
persisted `callCount` is *not* incremented and the `lastRequest` /
`lastResponse` snapshots are *not* updated: the handler answers from the
stored counters and returns the storage untouched. -/
theorem c9_counterexample :
    processRpcBatch 0 c9StatsParse "boom" "S\nP" c9Sto =
      (.arr [.str "result", .num 3, .obj
          [("callCount", .num 7), ("lastRequest", .null), ("lastResponse", .null)]],
        c9Sto) ∧
    c9Sto.callCount = some 7 ∧ c9Sto.lastRequest = none ∧ c9Sto.lastResponse = none :=
  ⟨rfl, rfl, rfl, rfl⟩

theorem tryHandleStatsBatch_storage {parse : String → Option JValue} {payload : String}
    {sto : Storage} {r : JValue} {sto2 : Storage}
    (h : tryHandleStatsBatch parse payload sto = some (r, sto2)) : sto2 = sto := by
  rw [tryHandleStatsBatch] at h
  rcases hd : decodeStatsBatch parse payload with _ | i
  · rw [hd] at h; cases h
  · rw [hd] at h
    dsimp only at h
    obtain ⟨-, h2⟩ := (Prod.mk.injEq _ _ _ _).mp (Option.some.inj h)
    exact h2.symm

theorem tryHandleChatBatch_storage {now : Int} {parse : String → Option JValue}
    {payload : String} {sto : Storage} {r : JValue} {sto2 : Storage}
    (h : tryHandleChatBatch now parse payload sto = some (r, sto2)) :
    sto2.callCount = some (sto.callCount.getD 0 + 1) ∧
    sto2.lastRequest = some payload ∧ sto2.lastResponse = some r := by
  rw [tryHandleChatBatch] at h
  rcases hd : decodeChatBatch parse payload with _ | t
  · rw [hd] at h; cases h
  · obtain ⟨importId, capId, method, args⟩ := t
    rw [hd] at h
    dsimp only at h
    obtain ⟨h1, h2⟩ := (Prod.mk.injEq _ _ _ _).mp (Option.some.inj h)
    subst h2
    exact ⟨rfl, rfl, by rw [h1]⟩

/-- C9 (amended): every batch successfully dispatched by the *chat* handler
increments the persisted `callCount` by exactly one and sets the
`lastRequest` / `lastResponse` snapshots to the payload and the response
line; the *stats* batch is answered without modifying storage; and every
batch — in particular one reported as not recognized, or one failing on the
calculator path — either leaves the storage unchanged or performs exactly
that increment-and-snapshot update (the latter happening exactly on
dispatched chat batches and successful calculator calls). -/
theorem c9_counters_updated (now : Int) (parse : String → Option JValue)
    (jsonErrMsg : String) (payload : String) (sto : Storage) :
    (∀ r sto2, tryHandleChatBatch now parse payload sto = some (r, sto2) →
      sto2.callCount = some (sto.callCount.getD 0 + 1) ∧
      sto2.lastRequest = some payload ∧ sto2.lastResponse = some r)
    ∧ (∀ r sto2, tryHandleStatsBatch parse payload sto = some (r, sto2) → sto2 = sto)
    ∧ ((processRpcBatch now parse jsonErrMsg payload sto).2 = sto
       ∨ ((processRpcBatch now parse jsonErrMsg payload sto).2.callCount =
            some (sto.callCount.getD 0 + 1)
          ∧ (processRpcBatch now parse jsonErrMsg payload sto).2.lastRequest = some payload
          ∧ (processRpcBatch now parse jsonErrMsg payload sto).2.lastResponse =
            some (processRpcBatch now parse jsonErrMsg payload sto).1)) := by
  refine ⟨fun r sto2 h => tryHandleChatBatch_storage h,
    fun r sto2 h => tryHandleStatsBatch_storage h, ?_⟩
  unfold processRpcBatch
  rcases hs : tryHandleStatsBatch parse payload sto with _ | ⟨r, sto2⟩
  swap
  · left
    dsimp only
    exact tryHandleStatsBatch_storage hs
  rcases hcb : tryHandleChatBatch now parse payload sto with _ | ⟨r, sto2⟩
  swap
  · right
    dsimp only
    obtain ⟨h1, h2, h3⟩ := tryHandleChatBatch_storage hcb
    exact ⟨h1, h2, h3⟩
  dsimp only
  rcases hsp : splitLines payload with _ | ⟨l0, rest⟩
  · left; rfl
  rcases rest with _ | ⟨l1, rest2⟩
  · left; rfl
  rcases rest2 with _ | ⟨l2, rest3⟩
  swap
  · left; rfl
  dsimp only
  rcases hp0 : parse l0 with _ | pushOp
  · left; rfl
  rcases hp1 : parse l1 with _ | pullOp
  · left; rfl
  dsimp only
  rcases ha0 : asArr pushOp with _ | ps
  · left; rfl
  rcases ha1 : asArr pullOp with _ | qs
  · left; rfl
  dsimp only
  by_cases htags : tagIs ps "push" && tagIs qs "pull"
  swap
  · rw [if_neg htags]; left; rfl
  rw [if_pos htags]
  rcases hcl : (ps[1]?).bind asArr with _ | callList
  · left; rfl
  dsimp only
  by_cases hcalc : tagIs callList "call" &&
      (match callList[1]? with
        | some (JValue.num n) => n == CALCULATOR_CAP_ID
        | _ => false)
  swap
  · rw [if_neg hcalc]; left; rfl
  rw [if_pos hcalc]
  rcases hcc : handleCalculatorCall callList with m | v
  · left; rfl
  · right
    exact ⟨rfl, rfl, rfl⟩

/-- Concrete outcome of a dispatched chat batch used as the C9 witness
input (an `auth` batch answered against a storage with `callCount = 7`). -/
def c9wOut : JValue × Storage :=
  (tryHandleChatBatch 0 c1Parse "A\nB"
    { chatState := none, callCount := some 7 }).getD (.null, {})

theorem c9_witness :
    c9wOut.2.callCount = some 8 ∧ c9wOut.2.lastRequest = some "A\nB" ∧
    c9wOut.2.lastResponse = some c9wOut.1 :=
  (c9_counters_updated 0 c1Parse "boom" "A\nB"
    { chatState := none, callCount := some 7 }).1 c9wOut.1 c9wOut.2 rfl
